import Mathlib

/-!
# Verification of the Blue Crab storage/versioning core (`src/code/logic/bluecrab.c`)

Shallow embedding of the C sources of fossil-crabdb's Blue Crab core.

Modelling conventions:
* C byte strings (`char *`, NUL-terminated) are modelled as `List Nat`, the list of
  their bytes before the terminating NUL.  A NULL pointer for an optional string
  (metadata, per-entry hash, current commit) is `Option.none`.
* Machine integers are modelled by their bit patterns as `Nat`, reduced `% 2^w`
  exactly where the C code truncates.  `float`/`double` payloads are modelled by
  their IEEE-754 bit patterns (the C code only ever `memcpy`s them into integers).
* `time_t` and `size_t` are 8 bytes (the layout the spec's §4.2 and §4.7 fix).
* `time(NULL)` is passed in as an explicit `now : Nat` parameter.
* Heap concerns (malloc failure, pointer identity) are outside the embedding;
  every allocation is assumed to succeed, as the claims presuppose.

The db/entry/commit structures (`fossil_bluecrab_core_db_t` etc.) are not defined
in the provided sources; their fields are reconstructed from every use in
`bluecrab.c` (`key`, `value`, `created_at`, `updated_at`, `metadata`, `hash`;
`hash`, `message`, `timestamp`, `snapshot`, `snapshot_count`; `entries`,
`entry_count`, `commits`, `commit_count`, `branch`, `current_commit`), matching
the data model of spec §3.  The `db_path` field only names the backing file and
is omitted.
-/

set_option maxRecDepth 10000

namespace BlueCrab

/-- The `fossil_bluecrab_core_type_t`/value union from the sources: a tagged sum.
String-like variants (`cstr`, `hex`, `oct`, `bin`) carry an optional byte string
(NULL pointer = `none`); numeric variants carry their bit patterns. `any` carries
no payload (the C sources never populate it and `value_copy` zeroes it). -/
inductive Value where
  | vI8 (bits : Nat)
  | vI16 (bits : Nat)
  | vI32 (bits : Nat)
  | vI64 (bits : Nat)
  | vU8 (bits : Nat)
  | vU16 (bits : Nat)
  | vU32 (bits : Nat)
  | vU64 (bits : Nat)
  | vF32 (bits : Nat)
  | vF64 (bits : Nat)
  | vCStr (s : Option (List Nat))
  | vChar (bits : Nat)
  | vBool (b : Bool)
  | vHex (s : Option (List Nat))
  | vOct (s : Option (List Nat))
  | vBin (s : Option (List Nat))
  | vSize (bits : Nat)
  | vDatetime (bits : Nat)
  | vDuration (bits : Nat)
  | vAny
  | vNull
  deriving Repr, DecidableEq, Inhabited

/-- Numeric value of the enum tag `FBC_TYPE_*`, in the declaration order of the
`fossil_bluecrab_core_type_t` enum (I8 = 0 … ANY = 19, NULL = 20). -/
def tagOf : Value → Nat
  | .vI8 _ => 0
  | .vI16 _ => 1
  | .vI32 _ => 2
  | .vI64 _ => 3
  | .vU8 _ => 4
  | .vU16 _ => 5
  | .vU32 _ => 6
  | .vU64 _ => 7
  | .vF32 _ => 8
  | .vF64 _ => 9
  | .vCStr _ => 10
  | .vChar _ => 11
  | .vBool _ => 12
  | .vHex _ => 13
  | .vOct _ => 14
  | .vBin _ => 15
  | .vSize _ => 16
  | .vDatetime _ => 17
  | .vDuration _ => 18
  | .vAny => 19
  | .vNull => 20

/-- One stored row (`fossil_bluecrab_core_entry_t`). -/
structure Entry where
  key : List Nat
  value : Value
  createdAt : Nat
  updatedAt : Nat
  metadata : Option (List Nat)
  hash : Option (List Nat)
  deriving Repr, DecidableEq, Inhabited

/-- One commit (`fossil_bluecrab_core_commit_t`); `snapshot_count` is the length
of `snapshot`. -/
structure Commit where
  hash : List Nat
  message : List Nat
  timestamp : Nat
  snapshot : List Entry
  deriving Repr, DecidableEq, Inhabited

/-- The database handle (`fossil_bluecrab_core_db_t`); `entry_count` and
`commit_count` are the lengths of `entries` and `commits`. -/
structure DB where
  entries : List Entry
  commits : List Commit
  branch : List Nat
  currentCommit : Option (List Nat)
  deriving Repr, DecidableEq, Inhabited

/-- Embeds `fossil_bluecrab_core_init`: empty entry set, branch `"main"`, no current
commit.  (The C function leaves `commits`/`commit_count` uninitialized; they are
modelled as the empty log.) -/
def fossil_bluecrab_core_init : DB :=
  { entries := [], commits := [], branch := [109, 97, 105, 110], currentCommit := none }

/-- Embeds `fossil_bluecrab_core_value_copy`: deep copy of a value (the tag is copied and
each variant's payload is duplicated; variants not named in the switch — `any`,
`null` — get a zeroed payload, which they do not carry here). -/
def fossil_bluecrab_core_value_copy : Value → Value
  | .vCStr s => .vCStr s
  | .vHex s => .vHex s
  | .vOct s => .vOct s
  | .vBin s => .vBin s
  | .vChar b => .vChar b
  | .vBool b => .vBool b
  | .vI8 b => .vI8 b
  | .vI16 b => .vI16 b
  | .vI32 b => .vI32 b
  | .vI64 b => .vI64 b
  | .vU8 b => .vU8 b
  | .vU16 b => .vU16 b
  | .vU32 b => .vU32 b
  | .vU64 b => .vU64 b
  | .vF32 b => .vF32 b
  | .vF64 b => .vF64 b
  | .vSize b => .vSize b
  | .vDatetime b => .vDatetime b
  | .vDuration b => .vDuration b
  | .vAny => .vAny
  | .vNull => .vNull

/-! ## Hashing (`fossil_bluecrab_core_hash_entry`) -/

/-- Constant 2^64, the modulus of all 64-bit arithmetic in the hasher. -/
def M64 : Nat := 18446744073709551616

/-- FNV-1a 64-bit offset basis. -/
def fnvBasis : Nat := 1469598103934665603

/-- FNV-1a 64-bit prime. -/
def fnvPrime : Nat := 1099511628211

/-- The `MIX_BYTE` macro: `hash ^= (unsigned char) b; hash *= FNV_PRIME;`. -/
def mixByte (h b : Nat) : Nat := ((h ^^^ (b % 256)) * fnvPrime) % M64

/-- Feed a sequence of bytes through `MIX_BYTE`. -/
def mixBytes (h : Nat) (bs : List Nat) : Nat := bs.foldl mixByte h

/-- The `w` little-endian bytes of a bit pattern, as produced byte-by-byte by
`MIX_BYTE(x >> (i * 8))` and by `fwrite` of a `w`-byte little-endian integer. -/
def leBytes : Nat → Nat → List Nat
  | 0, _ => []
  | w + 1, n => n % 256 :: leBytes w (n / 256)

/-- Type-specific bytes the hasher consumes for each variant (the value switch in
`fossil_bluecrab_core_hash_entry`).  Variants absent from the switch — `hex`,
`oct`, `bin`, `any`, `null` — contribute nothing. -/
def valueHashBytes : Value → List Nat
  | .vI8 b => [b % 256]
  | .vI16 b => leBytes 2 b
  | .vI32 b => leBytes 4 b
  | .vI64 b => leBytes 8 b
  | .vU8 b => [b % 256]
  | .vU16 b => leBytes 2 b
  | .vU32 b => leBytes 4 b
  | .vU64 b => leBytes 8 b
  | .vF32 b => leBytes 4 b
  | .vF64 b => leBytes 8 b
  | .vCStr s => s.getD []
  | .vChar b => [b % 256]
  | .vBool b => [if b then 1 else 0]
  | .vHex _ => []
  | .vOct _ => []
  | .vBin _ => []
  | .vSize b => leBytes 8 b
  | .vDatetime b => leBytes 8 b
  | .vDuration b => leBytes 8 b
  | .vAny => []
  | .vNull => []

/-- The final avalanche: three xor-shifts around two 64-bit multiplies. -/
def avalanche (h0 : Nat) : Nat :=
  let h1 := h0 ^^^ (h0 >>> 33)
  let h2 := (h1 * 18397679294719823053) % M64
  let h3 := h2 ^^^ (h2 >>> 33)
  let h4 := (h3 * 14181476777654086739) % M64
  h4 ^^^ (h4 >>> 33)

/-- One uppercase hexadecimal digit byte (`0`-`9`, `A`-`F`). -/
def hexDigit (d : Nat) : Nat := if d < 10 then 48 + d else 55 + d

/-- Embeds `snprintf("%016llX")`: 16 uppercase hex character bytes, most significant
nibble first, zero padded. -/
def hex16 (n : Nat) : List Nat :=
  (List.range 16).map fun i => hexDigit (n / 16 ^ (15 - i) % 16)

/-- Embeds `fossil_bluecrab_core_hash_entry`: 64-bit FNV-1a over key bytes, two
little-endian type-tag bytes, the type-specific value bytes, the metadata bytes
when present, and eight little-endian bytes each of `created_at` and
`updated_at`; then the avalanche, formatted as 16 uppercase hex characters.
The stored `hash` field of the argument is not read. -/
def fossil_bluecrab_core_hash_entry (e : Entry) : List Nat :=
  let h1 := mixBytes fnvBasis e.key
  let h2 := mixBytes h1 [tagOf e.value % 256, tagOf e.value / 256 % 256]
  let h3 := mixBytes h2 (valueHashBytes e.value)
  let h4 := mixBytes h3 (e.metadata.getD [])
  let h5 := mixBytes h4 (leBytes 8 e.createdAt)
  let h6 := mixBytes h5 (leBytes 8 e.updatedAt)
  hex16 (avalanche h6)

/-- Embeds `fossil_bluecrab_core_verify_entry`: recompute the hash and compare with the
stored one; an entry without a stored hash does not verify. -/
def fossil_bluecrab_core_verify_entry (e : Entry) : Bool :=
  match e.hash with
  | none => false
  | some h => fossil_bluecrab_core_hash_entry e == h

/-- Embeds `fossil_bluecrab_core_verify_db`: every live entry verifies. -/
def fossil_bluecrab_core_verify_db (db : DB) : Bool :=
  db.entries.all fossil_bluecrab_core_verify_entry

/-! ## CRUD (`fossil_bluecrab_core_set` / `get` / `delete`), metadata, clear -/

/-- The update scan of `fossil_bluecrab_core_set`: replace the value of the first
entry with the given key (freeing the old value), stamp `updated_at`, and
recompute its hash; `none` when no entry has the key. -/
def setList (key : List Nat) (v : Value) (now : Nat) : List Entry → Option (List Entry)
  | [] => none
  | e :: es =>
    if e.key = key then
      let e1 : Entry := { e with value := fossil_bluecrab_core_value_copy v, updatedAt := now }
      some ({ e1 with hash := some (fossil_bluecrab_core_hash_entry e1) } :: es)
    else
      match setList key v now es with
      | some es1 => some (e :: es1)
      | none => none

/-- Embeds `fossil_bluecrab_core_set`: update in place when the key exists, otherwise
append a fresh entry with `created_at = updated_at = now`, no metadata, and a
computed hash.  Returns the C `bool` alongside the new state; NULL `db`/`key`
are not representable, and allocation is assumed to succeed, so the result flag
is always `true`. -/
def fossil_bluecrab_core_set (db : DB) (key : List Nat) (v : Value) (now : Nat) :
    Bool × DB :=
  match setList key v now db.entries with
  | some es => (true, { db with entries := es })
  | none =>
    let e0 : Entry :=
      { key := key, value := fossil_bluecrab_core_value_copy v, createdAt := now,
        updatedAt := now, metadata := none, hash := none }
    (true, { db with entries := db.entries ++ [{ e0 with hash := some (fossil_bluecrab_core_hash_entry e0) }] })

/-- Embeds `fossil_bluecrab_core_get`: deep copy of the first matching entry's value. -/
def fossil_bluecrab_core_get (db : DB) (key : List Nat) : Option Value :=
  match db.entries.find? (fun e => e.key == key) with
  | some e => some (fossil_bluecrab_core_value_copy e.value)
  | none => none

/-- The removal scan of `fossil_bluecrab_core_delete`: drop the first entry with
the key, keeping the rest in order; `none` when absent. -/
def deleteList (key : List Nat) : List Entry → Option (List Entry)
  | [] => none
  | e :: es =>
    if e.key = key then some es
    else
      match deleteList key es with
      | some es1 => some (e :: es1)
      | none => none

/-- Embeds `fossil_bluecrab_core_delete`: remove the first entry with the key; `false`
and unchanged state when the key is absent. -/
def fossil_bluecrab_core_delete (db : DB) (key : List Nat) : Bool × DB :=
  match deleteList key db.entries with
  | some es => (true, { db with entries := es })
  | none => (false, db)

/-- Embeds `fossil_bluecrab_core_has_key`. -/
def fossil_bluecrab_core_has_key (db : DB) (key : List Nat) : Bool :=
  db.entries.any (fun e => e.key == key)

/-- Embeds `fossil_bluecrab_core_clear`: drop all live entries (always succeeds). -/
def fossil_bluecrab_core_clear (db : DB) : DB := { db with entries := [] }

/-- The scan of `fossil_bluecrab_core_set_metadata`: replace the metadata of the
first entry with the key.  Neither `updated_at` nor the stored hash is touched. -/
def setMetaList (key : List Nat) (md : Option (List Nat)) : List Entry → Option (List Entry)
  | [] => none
  | e :: es =>
    if e.key = key then some ({ e with metadata := md } :: es)
    else
      match setMetaList key md es with
      | some es1 => some (e :: es1)
      | none => none

/-- Embeds `fossil_bluecrab_core_set_metadata`: `false` and unchanged state when the
key is absent. -/
def fossil_bluecrab_core_set_metadata (db : DB) (key : List Nat) (md : Option (List Nat)) :
    Bool × DB :=
  match setMetaList key md db.entries with
  | some es => (true, { db with entries := es })
  | none => (false, db)

/-- The scan of `fossil_bluecrab_core_get_metadata`: the stored `metadata` field
of the first entry with the key (which may itself be NULL), NULL when absent. -/
def getMetaList (key : List Nat) : List Entry → Option (List Nat)
  | [] => none
  | e :: es => if e.key = key then e.metadata else getMetaList key es

/-- Embeds `fossil_bluecrab_core_get_metadata`: returns the stored annotation pointer
itself — `none` both for a missing key and for an entry without metadata. -/
def fossil_bluecrab_core_get_metadata (db : DB) (key : List Nat) : Option (List Nat) :=
  getMetaList key db.entries

/-! ## Pattern matcher (`string_matches_pattern`) and key search -/

/-- Embeds `tolower` on a byte, in the C locale. -/
def toLowerB (b : Nat) : Nat := if 65 ≤ b ∧ b ≤ 90 then b + 32 else b

/-- The `CH_EQ` macro: byte equality, folded through `tolower` when the pattern
started with `(?i)`. -/
def chEq (ci : Bool) (a b : Nat) : Bool :=
  if ci then toLowerB a == toLowerB b else a == b

/-- The `^` loop of `string_matches_pattern` (also the head check of the `*`
branch and the inner loop of the substring scan): consume while both the string
and the pattern have characters and they `CH_EQ`; succeed iff the pattern was
exhausted. -/
def caretMatch (ci : Bool) : List Nat → List Nat → Bool
  | _, [] => true
  | [], _ :: _ => false
  | s :: ss, p :: ps => chEq ci s p && caretMatch ci ss ps

/-- The tail-comparison loop of the `$` and `*` branches: consume while the
pattern has characters; a NUL on the string side fails (pattern bytes are
nonzero). -/
def tailMatch (ci : Bool) : List Nat → List Nat → Bool
  | _, [] => true
  | [], _ :: _ => false
  | t :: ts, p :: ps => chEq ci t p && tailMatch ci ts ps

/-- The `$` branch: the pattern body (before `$`) must equal the string's
suffix of the same length. -/
def dollarMatch (ci : Bool) (str body : List Nat) : Bool :=
  if str.length < body.length then false
  else tailMatch ci (str.drop (str.length - body.length)) body

/-- The `*` branch: fixed head must `CH_EQ`-prefix the string; an empty tail
always succeeds; otherwise the string must be long enough and its last
`tail.length` characters must equal the tail. -/
def starMatch (ci : Bool) (str head tl : List Nat) : Bool :=
  caretMatch ci str head &&
    (if tl = [] then true
     else if str.length < head.length + tl.length then false
     else tailMatch ci (str.drop (str.length - tl.length)) tl)

/-- The default branch: the pattern occurs as a `CH_EQ`-substring.  The C loop
ranges over the nonempty suffixes of the string (so the empty string matches no
pattern, not even the empty one). -/
def substrMatch (ci : Bool) (pat : List Nat) : List Nat → Bool
  | [] => false
  | s :: ss => caretMatch ci (s :: ss) pat || substrMatch ci pat ss

/-- The branch dispatch of `string_matches_pattern` after the `(?i)` prefix has
been stripped: in order, the leading-`^` branch, the trailing-`$` branch, the
wildcard branch splitting at the first `*` (later `*` bytes are part of the
literal tail), and a substring search by default. -/
def matchBody (ci : Bool) (str pat : List Nat) : Bool :=
  if pat.head? = some 94 then caretMatch ci str pat.tail
  else if pat.getLast? = some 36 then dollarMatch ci str pat.dropLast
  else
    match pat.dropWhile (fun b => b != 42) with
    | _ :: tl => starMatch ci str (pat.takeWhile (fun b => b != 42)) tl
    | [] => substrMatch ci pat str

/-- Embeds `string_matches_pattern`: an optional `(?i)` prefix turns on case folding
for the whole pattern, then the branches of `matchBody`. -/
def string_matches_pattern (str pat0 : List Nat) : Bool :=
  if pat0.take 4 == [40, 63, 105, 41] then matchBody true str (pat0.drop 4)
  else matchBody false str pat0

/-- Embeds `fossil_bluecrab_core_find_keys`: the keys of the matching entries, in
insertion order. -/
def fossil_bluecrab_core_find_keys (db : DB) (pat : List Nat) : List (List Nat) :=
  (db.entries.filter (fun e => string_matches_pattern e.key pat)).map Entry.key

/-! ## Commits and merge -/

/-- Embeds `copy_entry`: a deep copy of an entry (fresh copies of the key, value
payload, metadata and hash; timestamps copied). -/
def copy_entry (e : Entry) : Entry :=
  { key := e.key, value := fossil_bluecrab_core_value_copy e.value,
    createdAt := e.createdAt, updatedAt := e.updatedAt,
    metadata := e.metadata, hash := e.hash }

/-- Modelled from the spec: `copy_entries` is referenced by `bluecrab.c` but not
defined in the provided sources; spec §9 specifies it as a deep copy of each of
the database's live entries (including heap payloads), returning the copied
array and its count. -/
def copy_entries (db : DB) : List Entry := db.entries.map copy_entry

/-- Modelled from the spec: `bluecrab_find_commit` is referenced by `bluecrab.c`
but not defined in the provided sources; spec §9 specifies it as a linear scan
of the commit log by commit id. -/
def bluecrab_find_commit (db : DB) (id : List Nat) : Option Commit :=
  db.commits.find? (fun c => c.hash == id)

/-- Modelled from the spec: `bluecrab_find_entry` is referenced by `bluecrab.c`
but not defined in the provided sources; spec §9 specifies it as a linear scan
of an entry array by key. -/
def bluecrab_find_entry (snapshot : List Entry) (key : List Nat) : Option Entry :=
  snapshot.find? (fun e => e.key == key)

/-- Base-10 digits, least significant first, by fuelled division (the fuel makes
the recursion structural; `fuel ≥ n` suffices). -/
def decAux : Nat → Nat → List Nat
  | 0, _ => []
  | fuel + 1, n => if n = 0 then [] else n % 10 :: decAux fuel (n / 10)

/-- Embeds `snprintf("%zu")`: the decimal digit bytes of a number, most significant
first. -/
def decimalBytes (n : Nat) : List Nat :=
  if n = 0 then [48] else ((decAux n n).map (fun d => 48 + d)).reverse

/-- The commit id `"commit_N"` built by `fossil_bluecrab_core_commit`. -/
def commitIdBytes (n : Nat) : List Nat :=
  [99, 111, 109, 109, 105, 116, 95] ++ decimalBytes n

/-- Embeds `fossil_bluecrab_core_commit`: snapshot the live entries (deep copy), append
a commit whose id is `"commit_"` followed by the new commit count, and point the
current commit at it.  No parent id or branch is recorded on the commit. -/
def fossil_bluecrab_core_commit (db : DB) (message : List Nat) (now : Nat) : Bool × DB :=
  let snapshot := copy_entries db
  let id := commitIdBytes (db.commits.length + 1)
  (true,
    { db with
        commits := db.commits ++ [{ hash := id, message := message, timestamp := now, snapshot := snapshot }],
        currentCommit := some id })

/-- The source-snapshot loop of `fossil_bluecrab_core_merge`: keys absent from
the target snapshot are `set`; keys whose snapshot hashes differ are conflicts —
resolved by `set` of the source entry when `auto` is on, otherwise the merge
aborts right there, returning `false` with the state built so far. -/
def mergeLoop (auto : Bool) (dstSnap : List Entry) (now : Nat) :
    DB → List Entry → Bool × DB
  | db, [] => (true, db)
  | db, se :: rest =>
    match bluecrab_find_entry dstSnap se.key with
    | none =>
      mergeLoop auto dstSnap now
        (fossil_bluecrab_core_set db se.key (fossil_bluecrab_core_value_copy se.value) now).2 rest
    | some te =>
      if se.hash = te.hash then mergeLoop auto dstSnap now db rest
      else if auto then
        mergeLoop auto dstSnap now
          (fossil_bluecrab_core_set db se.key (fossil_bluecrab_core_value_copy se.value) now).2 rest
      else (false, db)

/-- Embeds `fossil_bluecrab_core_merge`: locate both commits (failure if either is
missing, before touching the live set), clear the live set and rebuild it by
`set`ting every target-snapshot entry's key and value, run the source loop, and
on success conclude with a `"merge commit"`. -/
def fossil_bluecrab_core_merge (db : DB) (src tgt : List Nat) (auto : Bool) (now : Nat) :
    Bool × DB :=
  match bluecrab_find_commit db src, bluecrab_find_commit db tgt with
  | some sc, some tc =>
    let db1 := fossil_bluecrab_core_clear db
    let db2 := tc.snapshot.foldl
      (fun d e => (fossil_bluecrab_core_set d e.key (fossil_bluecrab_core_value_copy e.value) now).2) db1
    let r := mergeLoop auto tc.snapshot now db2 sc.snapshot
    if r.1 then
      (true, (fossil_bluecrab_core_commit r.2 [109, 101, 114, 103, 101, 32, 99, 111, 109, 109, 105, 116] now).2)
    else (false, r.2)
  | _, _ => (false, db)

/-! ## Persistence codec (`fossil_bluecrab_core_save` / `load`)

The file I/O is abstracted to the byte stream written/read: `save` produces the
byte list `fwrite` emits, `load` parses a byte list the way the `fread`
sequence consumes it (`none` models a short read / unknown tag, after which the
loaded structures would be garbage). -/

/-- A length-prefixed string block: `u64 len+1`, the bytes, the NUL. -/
def chunk (s : List Nat) : List Nat := leBytes 8 (s.length + 1) ++ s ++ [0]

/-- A length-prefixed optional string block: length `0` and no bytes for NULL. -/
def optChunk : Option (List Nat) → List Nat
  | none => leBytes 8 0
  | some s => chunk s

/-- The value payload `save` writes: only `i32` (4 raw bytes) and `cstr`
(length-prefixed) are written; every other variant's payload is dropped.
(A `cstr` holding a NULL pointer would crash `strlen`; it contributes nothing
here and is excluded from the round-trip hypotheses.) -/
def valueBlock : Value → List Nat
  | .vI32 b => leBytes 4 b
  | .vCStr (some s) => chunk s
  | _ => []

/-- The byte block `save` writes per entry: key, 4-byte type tag, value payload,
`created_at`, `updated_at`, optional hash.  The metadata field is never
written. -/
def entryBlock (e : Entry) : List Nat :=
  chunk e.key ++ leBytes 4 (tagOf e.value) ++ valueBlock e.value ++
    leBytes 8 e.createdAt ++ leBytes 8 e.updatedAt ++ optChunk e.hash

/-- The byte block `save` writes per commit: id, message, timestamp, snapshot
count, snapshot entry blocks. -/
def commitBlock (c : Commit) : List Nat :=
  chunk c.hash ++ chunk c.message ++ leBytes 8 c.timestamp ++
    leBytes 8 c.snapshot.length ++ (c.snapshot.map entryBlock).flatten

/-- Embeds `fossil_bluecrab_core_save`: entry count and entries, commit count and
commits, branch, optional current commit. -/
def fossil_bluecrab_core_save (db : DB) : List Nat :=
  leBytes 8 db.entries.length ++ (db.entries.map entryBlock).flatten ++
    leBytes 8 db.commits.length ++ (db.commits.map commitBlock).flatten ++
    chunk db.branch ++ optChunk db.currentCommit

/-- Take exactly `n` bytes from the stream (`none` on a short read). -/
def readBytesN (n : Nat) (s : List Nat) : Option (List Nat × List Nat) :=
  if n ≤ s.length then some (s.take n, s.drop n) else none

/-- Recombine little-endian bytes. -/
def combineLE : List Nat → Nat
  | [] => 0
  | b :: bs => b % 256 + 256 * combineLE bs

/-- Read a `u64` (`fread` of a `size_t`/`time_t`). -/
def readNat8 (s : List Nat) : Option (Nat × List Nat) :=
  match readBytesN 8 s with
  | some (bs, r) => some (combineLE bs, r)
  | none => none

/-- Read a 4-byte integer (`fread` of an enum tag or an `int32_t`). -/
def readNat4 (s : List Nat) : Option (Nat × List Nat) :=
  match readBytesN 4 s with
  | some (bs, r) => some (combineLE bs, r)
  | none => none

/-- Read a length-prefixed string block, dropping the trailing NUL. -/
def readChunk (s : List Nat) : Option (List Nat × List Nat) :=
  match readNat8 s with
  | some (n, r) =>
    match readBytesN n r with
    | some (bs, r2) => some (bs.dropLast, r2)
    | none => none
  | none => none

/-- Read an optional length-prefixed string block (length 0 = NULL). -/
def readOptChunk (s : List Nat) : Option (Option (List Nat) × List Nat) :=
  match readNat8 s with
  | some (n, r) =>
    if n = 0 then some (none, r)
    else
      match readBytesN n r with
      | some (bs, r2) => some (some bs.dropLast, r2)
      | none => none
  | none => none

/-- The payload-less value `load` leaves for a tag it reads no payload for: the
C code leaves the union uninitialized; the unset payload is modelled as the
zero bit pattern (`false`, NULL).  Unknown tags (≥ 21) make the parse fail. -/
def defaultValueOfTag : Nat → Option Value
  | 0 => some (.vI8 0)
  | 1 => some (.vI16 0)
  | 3 => some (.vI64 0)
  | 4 => some (.vU8 0)
  | 5 => some (.vU16 0)
  | 6 => some (.vU32 0)
  | 7 => some (.vU64 0)
  | 8 => some (.vF32 0)
  | 9 => some (.vF64 0)
  | 11 => some (.vChar 0)
  | 12 => some (.vBool false)
  | 13 => some (.vHex none)
  | 14 => some (.vOct none)
  | 15 => some (.vBin none)
  | 16 => some (.vSize 0)
  | 17 => some (.vDatetime 0)
  | 18 => some (.vDuration 0)
  | 19 => some .vAny
  | 20 => some .vNull
  | _ => none

/-- The value `load` reconstructs for a type tag: an `i32` payload or a `cstr`
block is read back; everything else gets no bytes. -/
def loadValue (tag : Nat) (s : List Nat) : Option (Value × List Nat) :=
  if tag = 2 then
    match readBytesN 4 s with
    | some (bs, r) => some (.vI32 (combineLE bs), r)
    | none => none
  else if tag = 10 then
    match readChunk s with
    | some (cs, r) => some (.vCStr (some cs), r)
    | none => none
  else
    match defaultValueOfTag tag with
    | some v => some (v, s)
    | none => none

/-- Parse one entry the way `load` reads it.  The metadata field is never read
(the C code leaves it unset); it is modelled as `none`. -/
def loadEntry (s : List Nat) : Option (Entry × List Nat) :=
  match readChunk s with
  | none => none
  | some (key, s1) =>
    match readNat4 s1 with
    | none => none
    | some (tag, s2) =>
      match loadValue tag s2 with
      | none => none
      | some (v, s3) =>
        match readNat8 s3 with
        | none => none
        | some (created, s4) =>
          match readNat8 s4 with
          | none => none
          | some (updated, s5) =>
            match readOptChunk s5 with
            | none => none
            | some (h, s6) =>
              some ({ key := key, value := v, createdAt := created,
                      updatedAt := updated, metadata := none, hash := h }, s6)

/-- Run a one-item parser a counted number of times. -/
def loadCount {α : Type} (p : List Nat → Option (α × List Nat)) :
    Nat → List Nat → Option (List α × List Nat)
  | 0, s => some ([], s)
  | n + 1, s =>
    match p s with
    | none => none
    | some (a, s1) =>
      match loadCount p n s1 with
      | none => none
      | some (as, s2) => some (a :: as, s2)

/-- Parse one commit the way `load` reads it. -/
def loadCommit (s : List Nat) : Option (Commit × List Nat) :=
  match readChunk s with
  | none => none
  | some (h, s1) =>
    match readChunk s1 with
    | none => none
    | some (msg, s2) =>
      match readNat8 s2 with
      | none => none
      | some (ts, s3) =>
        match readNat8 s3 with
        | none => none
        | some (cnt, s4) =>
          match loadCount loadEntry cnt s4 with
          | none => none
          | some (snap, s5) =>
            some ({ hash := h, message := msg, timestamp := ts, snapshot := snap }, s5)

/-- Embeds `fossil_bluecrab_core_load`: parse entries, commits, branch and current
commit back from the byte stream (trailing bytes are ignored, as the C reader
never checks for them). -/
def fossil_bluecrab_core_load (s : List Nat) : Option DB :=
  match readNat8 s with
  | none => none
  | some (ecount, s1) =>
    match loadCount loadEntry ecount s1 with
    | none => none
    | some (entries, s2) =>
      match readNat8 s2 with
      | none => none
      | some (ccount, s3) =>
        match loadCount loadCommit ccount s3 with
        | none => none
        | some (commits, s4) =>
          match readChunk s4 with
          | none => none
          | some (branch, s5) =>
            match readOptChunk s5 with
            | none => none
            | some (cur, _) =>
              some { entries := entries, commits := commits, branch := branch, currentCommit := cur }

/-! ## Specification-side definitions for claim C4

These two definitions follow the words of the spec/claim (a single FNV-1a fold
over one canonical byte stream), to be compared with the source-derived
`fossil_bluecrab_core_hash_entry`. -/

/-- The type-specific bytes asserted by claim C4 (spec §4.2): 1 byte for
i8/u8/bool/char, 2/4/8 little-endian bytes for the wider integers (and
size/datetime/duration), the IEEE-754 bit patterns for f32/f64, and the raw
bytes for the string-like variants cstr/hex/oct/bin; nothing for null (and
nothing for `any`, whose blob is never populated here). -/
def claimValueBytes : Value → List Nat
  | .vI8 b => [b % 256]
  | .vI16 b => leBytes 2 b
  | .vI32 b => leBytes 4 b
  | .vI64 b => leBytes 8 b
  | .vU8 b => [b % 256]
  | .vU16 b => leBytes 2 b
  | .vU32 b => leBytes 4 b
  | .vU64 b => leBytes 8 b
  | .vF32 b => leBytes 4 b
  | .vF64 b => leBytes 8 b
  | .vCStr s => s.getD []
  | .vChar b => [b % 256]
  | .vBool b => [if b then 1 else 0]
  | .vHex s => s.getD []
  | .vOct s => s.getD []
  | .vBin s => s.getD []
  | .vSize b => leBytes 8 b
  | .vDatetime b => leBytes 8 b
  | .vDuration b => leBytes 8 b
  | .vAny => []
  | .vNull => []

/-- The canonical byte stream asserted by claim C4: key bytes, two little-endian
type-tag bytes, the type-specific bytes, the metadata bytes (empty when absent),
eight little-endian bytes each of `created_at` and `updated_at`. -/
def claimCanonicalStream (e : Entry) : List Nat :=
  e.key ++ [tagOf e.value % 256, tagOf e.value / 256 % 256] ++ claimValueBytes e.value ++
    e.metadata.getD [] ++ leBytes 8 e.createdAt ++ leBytes 8 e.updatedAt

/-- A 64-bit FNV-1a of a byte stream. -/
def fnv1a64 (bs : List Nat) : Nat := mixBytes fnvBasis bs

/-- The hash claim C4 asserts: FNV-1a of the canonical stream, avalanched,
as 16 uppercase hex characters. -/
def claimC4Hash (e : Entry) : List Nat :=
  hex16 (avalanche (fnv1a64 (claimCanonicalStream e)))

/-- The amended type-specific bytes: as claim C4 describes, except that of the
string-like variants only `cstr` contributes its raw bytes — the `hex`, `oct`
and `bin` payloads contribute nothing. -/
def amendedValueBytes : Value → List Nat
  | .vI8 b => [b % 256]
  | .vI16 b => leBytes 2 b
  | .vI32 b => leBytes 4 b
  | .vI64 b => leBytes 8 b
  | .vU8 b => [b % 256]
  | .vU16 b => leBytes 2 b
  | .vU32 b => leBytes 4 b
  | .vU64 b => leBytes 8 b
  | .vF32 b => leBytes 4 b
  | .vF64 b => leBytes 8 b
  | .vCStr s => s.getD []
  | .vChar b => [b % 256]
  | .vBool b => [if b then 1 else 0]
  | .vHex _ => []
  | .vOct _ => []
  | .vBin _ => []
  | .vSize b => leBytes 8 b
  | .vDatetime b => leBytes 8 b
  | .vDuration b => leBytes 8 b
  | .vAny => []
  | .vNull => []

/-- The canonical stream with the amended value bytes. -/
def amendedCanonicalStream (e : Entry) : List Nat :=
  e.key ++ [tagOf e.value % 256, tagOf e.value / 256 % 256] ++ amendedValueBytes e.value ++
    e.metadata.getD [] ++ leBytes 8 e.createdAt ++ leBytes 8 e.updatedAt

/-- The amended claim-C4 hash. -/
def amendedC4Hash (e : Entry) : List Nat :=
  hex16 (avalanche (fnv1a64 (amendedCanonicalStream e)))

/-! ## Round-trip domain for claim C1

The side conditions under which `save` followed by `load` can reproduce a
database: every value is an `i32` (or a non-NULL `cstr`), no metadata, and all
counts/lengths/bit patterns fit the 64-bit fields of the format. -/

/-- Values whose payload `save` actually writes. -/
def valueRT : Value → Bool
  | .vI32 b => decide (b < 4294967296)
  | .vCStr (some s) => decide (s.length + 1 < 18446744073709551616)
  | _ => false

/-- An optional string short enough for its length-prefix field. -/
def optLenRT : Option (List Nat) → Bool
  | none => true
  | some s => decide (s.length + 1 < 18446744073709551616)

/-- An entry that survives the codec: writable value, no metadata annotation,
bounded key/hash lengths and 64-bit timestamps. -/
def entryRT (e : Entry) : Bool :=
  valueRT e.value && e.metadata.isNone &&
    decide (e.key.length + 1 < 18446744073709551616) &&
    decide (e.createdAt < 18446744073709551616) &&
    decide (e.updatedAt < 18446744073709551616) && optLenRT e.hash

/-- A commit that survives the codec. -/
def commitRT (c : Commit) : Bool :=
  decide (c.hash.length + 1 < 18446744073709551616) &&
    decide (c.message.length + 1 < 18446744073709551616) &&
    decide (c.timestamp < 18446744073709551616) &&
    decide (c.snapshot.length < 18446744073709551616) && c.snapshot.all entryRT

/-- A database that survives the codec. -/
def dbRT (db : DB) : Bool :=
  decide (db.entries.length < 18446744073709551616) && db.entries.all entryRT &&
    decide (db.commits.length < 18446744073709551616) && db.commits.all commitRT &&
    decide (db.branch.length + 1 < 18446744073709551616) && optLenRT db.currentCommit

/-! ## Concrete states used by the counterexamples and witnesses -/

/-- A fresh entry exactly as `fossil_bluecrab_core_set` appends it. -/
def freshEntry (key : List Nat) (v : Value) (t : Nat) : Entry :=
  let e0 : Entry := { key := key, value := v, createdAt := t, updatedAt := t,
                      metadata := none, hash := none }
  { e0 with hash := some (fossil_bluecrab_core_hash_entry e0) }

/-- A one-entry database whose entry carries a metadata annotation. -/
def exMetaDB : DB :=
  { entries := [{ key := [107], value := .vI32 1, createdAt := 3, updatedAt := 3,
                  metadata := some [109], hash := none }],
    commits := [], branch := [109, 97, 105, 110], currentCommit := none }

/-- Variant of `exMetaDB` with the annotation removed — `save` cannot tell them apart. -/
def exNoMetaDB : DB :=
  { entries := [{ key := [107], value := .vI32 1, createdAt := 3, updatedAt := 3,
                  metadata := none, hash := none }],
    commits := [], branch := [109, 97, 105, 110], currentCommit := none }

/-- Target commit for the merge scenario: key `"b"` at value 1. -/
def exTgtCommit : Commit :=
  { hash := commitIdBytes 1, message := [65], timestamp := 1,
    snapshot := [freshEntry [98] (.vI32 1) 1] }

/-- Source commit for the merge scenario: new key `"a"`, then key `"b"` at a
conflicting value. -/
def exSrcCommit : Commit :=
  { hash := commitIdBytes 2, message := [66], timestamp := 2,
    snapshot := [freshEntry [97] (.vI32 7) 2, freshEntry [98] (.vI32 2) 2] }

/-- A database holding the two merge-scenario commits. -/
def exMergeDB : DB :=
  { entries := [], commits := [exTgtCommit, exSrcCommit],
    branch := [109, 97, 105, 110], currentCommit := some (commitIdBytes 2) }

/-- A database whose single key is `"a"` (no `*` byte in any key). -/
def exStarFreeDB : DB :=
  { entries := [{ key := [97], value := .vNull, createdAt := 0, updatedAt := 0,
                  metadata := none, hash := none }],
    commits := [], branch := [109, 97, 105, 110], currentCommit := none }

/-- A database whose single key `"ab*c"` contains a literal `*` byte. -/
def exStarKeyDB : DB :=
  { entries := [{ key := [97, 98, 42, 99], value := .vNull, createdAt := 0, updatedAt := 0,
                  metadata := none, hash := none }],
    commits := [], branch := [109, 97, 105, 110], currentCommit := none }

/-- A three-state metadata example: key `"k"` with annotation `"m"`, key `"l"`
without annotation. -/
def exMetaLookupDB : DB :=
  { entries := [{ key := [107], value := .vNull, createdAt := 0, updatedAt := 0,
                  metadata := some [109], hash := none },
                { key := [108], value := .vNull, createdAt := 0, updatedAt := 0,
                  metadata := none, hash := none }],
    commits := [], branch := [109, 97, 105, 110], currentCommit := none }

/-- A one-entry database with key `"k"`, for the update-in-place witness. -/
def exHasKeyDB : DB :=
  { entries := [freshEntry [107] (.vI32 1) 5], commits := [],
    branch := [109, 97, 105, 110], currentCommit := none }

/-- The database reached from `init` by `set("k", i32 5)`, `set("s", cstr "v")`
and `commit("c")` — a round-trippable state. -/
def exRoundTripDB : DB :=
  (fossil_bluecrab_core_commit
    (fossil_bluecrab_core_set
      (fossil_bluecrab_core_set fossil_bluecrab_core_init [107] (.vI32 5) 2).2
      [115] (.vCStr (some [118])) 2).2
    [99] 3).2

/-- Whether the source snapshot contains a key that conflicts with the target
snapshot (present in both, snapshot hashes differ) — the abort condition of
`merge` without auto-resolve. -/
def MergeConflict (srcSnap tgtSnap : List Entry) : Prop :=
  ∃ se ∈ srcSnap, ∃ te, bluecrab_find_entry tgtSnap se.key = some te ∧ se.hash ≠ te.hash

/-- All commit ids in the log follow the source's `"commit_N"` scheme, `N` being
the 1-based position in the log. -/
def commitIdsCanonical (db : DB) : Prop :=
  ∀ i (h : i < db.commits.length), (db.commits[i]).hash = commitIdBytes (i + 1)

/-! # Theorems -/

/-! ## Basic copy facts -/

theorem value_copy_eq (v : Value) : fossil_bluecrab_core_value_copy v = v := by
  cases v <;> rfl

theorem copy_entry_eq (e : Entry) : copy_entry e = e := by
  cases e; simp [copy_entry, value_copy_eq]

/-! ## Claim C2 -/

/-- Claim C2: after every sequence of mutating operations every live entry's
stored hash equals its recomputed hash — in particular after `set_metadata`.
The code contradicts this (and its own tamper-detection machinery):
`set_metadata` replaces the annotation, which participates in the hash, without
recomputing the stored hash, so `verify_db` fails on an untampered database.
Evaluated at the failing input `init; set("k", i32 1) at t=5;
set_metadata("k", "m")`. -/
theorem claim_C2_set_metadata_stale_hash :
    fossil_bluecrab_core_verify_db
        (fossil_bluecrab_core_set fossil_bluecrab_core_init [107] (.vI32 1) 5).2 = true ∧
    fossil_bluecrab_core_verify_db
        (fossil_bluecrab_core_set_metadata
          (fossil_bluecrab_core_set fossil_bluecrab_core_init [107] (.vI32 1) 5).2
          [107] (some [109])).2 = false := by
  constructor
  · decide
  · decide

/-! ## Claim C10 -/

/-- The metadata scan returns the stored `metadata` field of the first matching
entry. -/
theorem getMetaList_eq_find (k : List Nat) :
    ∀ l : List Entry, getMetaList k l = (l.find? (fun e => e.key == k)).bind Entry.metadata := by
  intro l
  induction l with
  | nil => rfl
  | cons e es ih =>
    by_cases hk : e.key = k
    · simp [getMetaList, hk, List.find?_cons_of_pos]
    · simp only [getMetaList, if_neg hk, ih]
      rw [List.find?_cons_of_neg]
      simp [hk]

/-- Claim C10: `get_metadata` returns NULL both when the key is absent and when
the key is present without an annotation — the two cases are indistinguishable
to the caller — and when an annotation exists it returns the stored annotation
field itself. -/
theorem claim_C10_get_metadata (db : DB) (k : List Nat) :
    (db.entries.find? (fun e => e.key == k) = none →
      fossil_bluecrab_core_get_metadata db k = none) ∧
    (∀ e, db.entries.find? (fun e => e.key == k) = some e →
      fossil_bluecrab_core_get_metadata db k = e.metadata) := by
  refine ⟨fun h => ?_, fun e h => ?_⟩
  · rw [fossil_bluecrab_core_get_metadata, getMetaList_eq_find, h]; rfl
  · rw [fossil_bluecrab_core_get_metadata, getMetaList_eq_find, h]; rfl

/-- Witness for claim C10 at a concrete database: key `"k"` carries annotation
`"m"`, key `"l"` carries none, key `"n"` is absent — the latter two both
read back as NULL. -/
theorem claim_C10_get_metadata_witness :
    fossil_bluecrab_core_get_metadata exMetaLookupDB [107] = some [109] ∧
    fossil_bluecrab_core_get_metadata exMetaLookupDB [108] = none ∧
    fossil_bluecrab_core_get_metadata exMetaLookupDB [110] = none := by
  refine ⟨?_, ?_, ?_⟩
  · exact (claim_C10_get_metadata exMetaLookupDB [107]).2
      { key := [107], value := .vNull, createdAt := 0, updatedAt := 0,
        metadata := some [109], hash := none } (by decide)
  · exact (claim_C10_get_metadata exMetaLookupDB [108]).2
      { key := [108], value := .vNull, createdAt := 0, updatedAt := 0,
        metadata := none, hash := none } (by decide)
  · exact (claim_C10_get_metadata exMetaLookupDB [110]).1 (by decide)

/-! ## Claim C8 -/

/-- When some entry has the key, the update scan succeeds and replaces the entry
in place, preserving the key sequence. -/
theorem setList_some_keys (k : List Nat) (v : Value) (now : Nat) :
    ∀ l : List Entry, l.any (fun e => e.key == k) = true →
      ∃ es1, setList k v now l = some es1 ∧ es1.map Entry.key = l.map Entry.key := by
  intro l
  induction l with
  | nil => intro h; cases h
  | cons e es ih =>
    intro h
    by_cases hk : e.key = k
    · simp only [setList, if_pos hk]
      refine ⟨_, rfl, ?_⟩
      simp
    · have h2 : es.any (fun e => e.key == k) = true := by
        simp only [List.any_cons, Bool.or_eq_true] at h
        rcases h with h | h
        · exact absurd (by simpa using h) hk
        · exact h
      obtain ⟨es1, heq, hkeys⟩ := ih h2
      exact ⟨e :: es1, by simp [setList, hk, heq], by simp [hkeys]⟩

/-- The removal scan succeeds exactly when some entry has the key. -/
theorem deleteList_isSome (k : List Nat) :
    ∀ l : List Entry, (deleteList k l).isSome = l.any (fun e => e.key == k) := by
  intro l
  induction l with
  | nil => rfl
  | cons e es ih =>
    by_cases hk : e.key = k
    · simp [deleteList, hk]
    · cases hd : deleteList k es with
      | none => simp [deleteList, hk, hd, ← ih, List.any_cons]
      | some es1 => simp [deleteList, hk, hd, ← ih, List.any_cons]

/-- The metadata-update scan succeeds exactly when some entry has the key. -/
theorem setMetaList_isSome (k : List Nat) (md : Option (List Nat)) :
    ∀ l : List Entry, (setMetaList k md l).isSome = l.any (fun e => e.key == k) := by
  intro l
  induction l with
  | nil => rfl
  | cons e es ih =>
    by_cases hk : e.key = k
    · simp [setMetaList, hk]
    · cases hd : setMetaList k md es with
      | none => simp [setMetaList, hk, hd, ← ih, List.any_cons]
      | some es1 => simp [setMetaList, hk, hd, ← ih, List.any_cons]

/-- Claim C8, amended: the mutators reject only NULL arguments (which the
embedding cannot even express); the empty key is an ordinary key.  `set`
succeeds on every key — updating in place, key order preserved, when the key is
present — and `delete`/`set_metadata` succeed exactly when the key is present
(empty or not). -/
theorem claim_C8_amended (db : DB) (k : List Nat) (v : Value) (md : Option (List Nat)) (now : Nat) :
    (fossil_bluecrab_core_set db k v now).1 = true ∧
    (fossil_bluecrab_core_has_key db k = true →
      (fossil_bluecrab_core_set db k v now).2.entries.map Entry.key = db.entries.map Entry.key) ∧
    (fossil_bluecrab_core_delete db k).1 = fossil_bluecrab_core_has_key db k ∧
    (fossil_bluecrab_core_set_metadata db k md).1 = fossil_bluecrab_core_has_key db k := by
  refine ⟨?_, fun hk => ?_, ?_, ?_⟩
  · unfold fossil_bluecrab_core_set
    cases h : setList k v now db.entries <;> simp
  · obtain ⟨es1, heq, hkeys⟩ := setList_some_keys k v now db.entries hk
    unfold fossil_bluecrab_core_set
    rw [heq]
    exact hkeys
  · unfold fossil_bluecrab_core_delete fossil_bluecrab_core_has_key
    rw [← deleteList_isSome]
    cases h : deleteList k db.entries <;> simp
  · unfold fossil_bluecrab_core_set_metadata fossil_bluecrab_core_has_key
    rw [← setMetaList_isSome]
    cases h : setMetaList k md db.entries <;> simp

/-- Witness for claim C8 at a concrete database holding key `"k"`. -/
theorem claim_C8_amended_witness :
    (fossil_bluecrab_core_set exHasKeyDB [107] (.vI32 2) 6).1 = true ∧
    (fossil_bluecrab_core_set exHasKeyDB [107] (.vI32 2) 6).2.entries.map Entry.key =
      exHasKeyDB.entries.map Entry.key ∧
    (fossil_bluecrab_core_delete exHasKeyDB [107]).1 = true ∧
    (fossil_bluecrab_core_set_metadata exHasKeyDB [107] (some [109])).1 = true := by
  obtain ⟨h1, h2, h3, h4⟩ := claim_C8_amended exHasKeyDB [107] (.vI32 2) (some [109]) 6
  exact ⟨h1, h2 (by decide), by rw [h3]; decide, by rw [h4]; decide⟩

/-- Counterexample to claim C8 as stated: the empty key is not rejected —
`set(db, "", v)` on an empty database returns success and inserts an entry with
the empty key, and `delete` of the empty key then also succeeds. -/
theorem claim_C8_counterexample :
    (fossil_bluecrab_core_set fossil_bluecrab_core_init [] (.vI32 1) 0).1 = true ∧
    (fossil_bluecrab_core_set fossil_bluecrab_core_init [] (.vI32 1) 0).2.entries.map Entry.key
      = [[]] ∧
    (fossil_bluecrab_core_delete
      (fossil_bluecrab_core_set fossil_bluecrab_core_init [] (.vI32 1) 0).2 []).1 = true := by
  refine ⟨by decide, by decide, by decide⟩

/-! ## Claims C6 and C7: the pattern matcher -/

theorem natBeqComm (a b : Nat) : (a == b) = (b == a) := by
  by_cases h : a = b
  · subst h; rfl
  · have h1 : (a == b) = false := beq_eq_false_iff_ne.mpr h
    have h2 : (b == a) = false := beq_eq_false_iff_ne.mpr fun hh => h hh.symm
    rw [h1, h2]

/-- The `^` loop is a case-sensitive prefix test when case folding is off. -/
theorem caretMatch_false_eq (str pat : List Nat) :
    caretMatch false str pat = pat.isPrefixOf str := by
  induction pat generalizing str with
  | nil => cases str <;> rfl
  | cons p ps ih =>
    cases str with
    | nil => rfl
    | cons s ss =>
      show (chEq false s p && caretMatch false ss ps) = (p == s && ps.isPrefixOf ss)
      rw [ih, chEq, if_neg (by simp), natBeqComm s p]

/-- The `^` loop is a `tolower`-folded prefix test when case folding is on. -/
theorem caretMatch_true_eq (str pat : List Nat) :
    caretMatch true str pat = (pat.map toLowerB).isPrefixOf (str.map toLowerB) := by
  induction pat generalizing str with
  | nil => cases str <;> rfl
  | cons p ps ih =>
    cases str with
    | nil => rfl
    | cons s ss =>
      show (chEq true s p && caretMatch true ss ps) =
        ((toLowerB p == toLowerB s) && (ps.map toLowerB).isPrefixOf (ss.map toLowerB))
      rw [ih, chEq, if_pos rfl, natBeqComm (toLowerB s) (toLowerB p)]

/-- Claim C7, amended: a pattern `"^R"` (with or without a `(?i)` prefix)
matches a key iff `R` is a prefix of the key under the requested case
sensitivity — the key is free to extend beyond `R`; the C loop is a prefix
test, not a whole-string test. -/
theorem claim_C7_amended (str rest : List Nat) :
    string_matches_pattern str (94 :: rest) = rest.isPrefixOf str ∧
    string_matches_pattern str ([40, 63, 105, 41] ++ 94 :: rest) =
      (rest.map toLowerB).isPrefixOf (str.map toLowerB) :=
  ⟨caretMatch_false_eq str rest, caretMatch_true_eq str rest⟩

/-- Counterexample to claim C7 as stated: key `"abc"` has `"ab"` as a proper
prefix (extra trailing characters), yet pattern `"^ab"` matches it. -/
theorem claim_C7_counterexample :
    string_matches_pattern [97, 98, 99] [94, 97, 98] = true ∧
    ([97, 98, 99] : List Nat) ≠ [97, 98] := by
  refine ⟨by decide, by decide⟩

theorem toLowerB_eq42 {s : Nat} (h : toLowerB s = 42) : s = 42 := by
  unfold toLowerB at h
  split at h <;> omega

theorem chEq_not42 (ci : Bool) {s : Nat} (h : s ≠ 42) : chEq ci s 42 = false := by
  cases ci
  · simpa [chEq] using h
  · simp only [chEq, if_pos rfl]
    refine beq_eq_false_iff_ne.mpr fun hh => ?_
    exact h (toLowerB_eq42 (by simpa [toLowerB] using hh))

/-- A pattern fragment containing a `*` byte can never pass the `^`/head loop
against a star-free string. -/
theorem caretMatch_star_false (ci : Bool) :
    ∀ (str pat : List Nat), 42 ∉ str → 42 ∈ pat → caretMatch ci str pat = false := by
  intro str
  induction str with
  | nil =>
    intro pat _ hp
    cases pat with
    | nil => cases hp
    | cons p ps => rfl
  | cons s ss ih =>
    intro pat hs hp
    cases pat with
    | nil => cases hp
    | cons p ps =>
      show (chEq ci s p && caretMatch ci ss ps) = false
      rcases List.mem_cons.mp hp with h42 | h42
      · rw [← h42] at *
        rw [chEq_not42 ci (fun h => hs (h ▸ List.mem_cons_self s ss))]
        rfl
      · rw [ih ps (fun h => hs (List.mem_cons_of_mem s h)) h42, Bool.and_false]

/-- Likewise for the tail-comparison loop of the `$` and `*` branches. -/
theorem tailMatch_star_false (ci : Bool) :
    ∀ (str pat : List Nat), 42 ∉ str → 42 ∈ pat → tailMatch ci str pat = false := by
  intro str
  induction str with
  | nil =>
    intro pat _ hp
    cases pat with
    | nil => cases hp
    | cons p ps => rfl
  | cons s ss ih =>
    intro pat hs hp
    cases pat with
    | nil => cases hp
    | cons p ps =>
      show (chEq ci s p && tailMatch ci ss ps) = false
      rcases List.mem_cons.mp hp with h42 | h42
      · rw [← h42] at *
        rw [chEq_not42 ci (fun h => hs (h ▸ List.mem_cons_self s ss))]
        rfl
      · rw [ih ps (fun h => hs (List.mem_cons_of_mem s h)) h42, Bool.and_false]

/-- Against a star-free key, every branch of the matcher rejects a pattern that
contains at least two `*` bytes: after splitting at the first `*`, the second
`*` sits in the literal tail (or in the `^`/`$` remainder) and must be matched
literally. -/
theorem matchBody_two_stars (ci : Bool) (str pat : List Nat)
    (hs : 42 ∉ str) (hp : 2 ≤ pat.count 42) : matchBody ci str pat = false := by
  have hdropmem : ∀ n : Nat, 42 ∉ str.drop n := fun n h => hs (List.mem_of_mem_drop h)
  unfold matchBody
  by_cases h94 : pat.head? = some 94
  · rw [if_pos h94]
    cases pat with
    | nil => cases h94
    | cons p ps =>
      have hp94 : p = 94 := by simpa using h94
      have hmem : 42 ∈ ps := by
        refine List.count_pos_iff.mp ?_
        have := hp
        rw [List.count_cons] at this
        simp [hp94] at this
        omega
      exact caretMatch_star_false ci str ps hs hmem
  · rw [if_neg h94]
    by_cases h36 : pat.getLast? = some 36
    · rw [if_pos h36]
      rcases List.eq_nil_or_concat pat with rfl | ⟨as, a, rfl⟩
      · cases h36
      · simp only [List.concat_eq_append] at hp h36 ⊢
        have ha : a = 36 := by simpa [List.getLast?_concat] using h36
        have hcnt : 2 ≤ as.count 42 := by
          subst ha
          simpa [List.count_append] using hp
        have hmem : 42 ∈ as := List.count_pos_iff.mp (by omega)
        rw [List.dropLast_concat]
        unfold dollarMatch
        split
        · rfl
        · exact tailMatch_star_false ci _ as (hdropmem _) hmem
    · rw [if_neg h36]
      cases hdw : pat.dropWhile (fun b => b != 42) with
      | nil =>
        exfalso
        have hmem : 42 ∈ pat := List.count_pos_iff.mp (by omega)
        have hall := List.dropWhile_eq_nil_iff.mp hdw
        have := hall 42 hmem
        simp at this
      | cons b tl =>
        show starMatch ci str (pat.takeWhile (fun b => b != 42)) tl = false
        have hsplit : pat = pat.takeWhile (fun b => b != 42) ++ b :: tl := by
          rw [← hdw, List.takeWhile_append_dropWhile]
        have htw : (pat.takeWhile (fun b => b != 42)).count 42 = 0 := by
          refine List.count_eq_zero.mpr fun h => ?_
          have := List.mem_takeWhile_imp h
          simp at this
        have h2 : 2 ≤ (b :: tl).count 42 := by
          have h3 := hp
          rw [hsplit, List.count_append, htw] at h3
          simpa using h3
        have htl : 42 ∈ tl := by
          have h3 : (b :: tl).count 42 ≤ tl.count 42 + 1 := by
            rw [List.count_cons]; split <;> omega
          exact List.count_pos_iff.mp (by omega)
        unfold starMatch
        rw [if_neg (show ¬tl = [] by rintro rfl; cases htl)]
        split
        · rw [Bool.and_false]
        · rw [tailMatch_star_false ci _ tl (hdropmem _) htl, Bool.and_false]

/-- Claim C6, amended: a pattern with more than one `*` does not fail outright —
the first `*` is the wildcard and the remaining `*` bytes are literal — but
against keys containing no literal `*` byte such a pattern never matches, and
`find_keys` returns nothing over a database of star-free keys. -/
theorem claim_C6_amended (str pat : List Nat) (db : DB)
    (hs : 42 ∉ str) (hp : 2 ≤ pat.count 42) :
    string_matches_pattern str pat = false ∧
    ((∀ e ∈ db.entries, 42 ∉ e.key) → fossil_bluecrab_core_find_keys db pat = []) := by
  have hgen : ∀ s : List Nat, 42 ∉ s → string_matches_pattern s pat = false := by
    intro s hsk
    unfold string_matches_pattern
    split
    case isTrue h =>
      refine matchBody_two_stars true s (pat.drop 4) hsk ?_
      have htake : pat.take 4 = [40, 63, 105, 41] := by simpa using h
      have hpat : pat = [40, 63, 105, 41] ++ pat.drop 4 := by
        conv_lhs => rw [← List.take_append_drop 4 pat]
        rw [htake]
      have h2 := hp
      rw [hpat, List.count_append] at h2
      simpa using h2
    case isFalse h => exact matchBody_two_stars false s pat hsk hp
  refine ⟨hgen str hs, fun hdb => ?_⟩
  unfold fossil_bluecrab_core_find_keys
  rw [List.filter_eq_nil_iff.mpr fun e he => by simp [hgen e.key (hdb e he)]]
  rfl

/-- Witness for claim C6: pattern `"**"` against the star-free key `"a"` and a
database whose only key is `"a"`. -/
theorem claim_C6_amended_witness :
    string_matches_pattern [97] [42, 42] = false ∧
    fossil_bluecrab_core_find_keys exStarFreeDB [42, 42] = [] :=
  ⟨(claim_C6_amended [97] [42, 42] exStarFreeDB (by decide) (by decide)).1,
   (claim_C6_amended [97] [42, 42] exStarFreeDB (by decide) (by decide)).2 (by decide)⟩

/-- Counterexample to claim C6 as stated: the two-star pattern `"a*b*c"` does
match the key `"ab*c"` (the second `*` is matched literally), and `find_keys`
returns that key. -/
theorem claim_C6_counterexample :
    string_matches_pattern [97, 98, 42, 99] [97, 42, 98, 42, 99] = true ∧
    ([97, 42, 98, 42, 99] : List Nat).count 42 = 2 ∧
    fossil_bluecrab_core_find_keys exStarKeyDB [97, 42, 98, 42, 99] = [[97, 98, 42, 99]] := by
  refine ⟨by decide, by decide, by decide⟩

/-! ## Claim C4 -/

theorem amendedValueBytes_eq (v : Value) : amendedValueBytes v = valueHashBytes v := by
  cases v <;> rfl

/-- Claim C4, amended: the entry hash is the 64-bit FNV-1a of the canonical
stream as described, avalanched and formatted as 16 uppercase hex characters —
except that of the string-like variants only `cstr` contributes its raw bytes;
the `hex`/`oct`/`bin` payloads contribute no value bytes. -/
theorem claim_C4_amended (e : Entry) :
    fossil_bluecrab_core_hash_entry e = amendedC4Hash e := by
  simp only [fossil_bluecrab_core_hash_entry, amendedC4Hash, fnv1a64,
    amendedCanonicalStream, mixBytes, amendedValueBytes_eq, List.foldl_append]

/-- Counterexample to claim C4 as stated: for an entry holding the `hex` value
`"A"`, the code's hash differs from the claimed hash of the canonical stream
(the code never mixes the hex payload in). -/
theorem claim_C4_counterexample :
    fossil_bluecrab_core_hash_entry
        { key := [107], value := .vHex (some [65]), createdAt := 0, updatedAt := 0,
          metadata := none, hash := none } ≠
      claimC4Hash
        { key := [107], value := .vHex (some [65]), createdAt := 0, updatedAt := 0,
          metadata := none, hash := none } := by
  decide

/-! ## Claim C9 -/

theorem ofDigits_decAux : ∀ fuel n : Nat, n ≤ fuel → Nat.ofDigits 10 (decAux fuel n) = n := by
  intro fuel
  induction fuel with
  | zero =>
    intro n h
    have h0 : n = 0 := by omega
    subst h0
    rfl
  | succ fuel ih =>
    intro n h
    by_cases h0 : n = 0
    · subst h0; rfl
    · rw [decAux, if_neg h0, Nat.ofDigits_cons, ih (n / 10) (by omega)]
      omega

theorem decimalBytes_inj {n m : Nat} (hn : n ≠ 0) (hm : m ≠ 0)
    (h : decimalBytes n = decimalBytes m) : n = m := by
  unfold decimalBytes at h
  rw [if_neg hn, if_neg hm] at h
  have h2 := List.reverse_injective h
  have h3 : decAux n n = decAux m m :=
    List.map_injective_iff.mpr (fun a b hab => by simpa using hab) h2
  have h4 := congrArg (Nat.ofDigits 10) h3
  rwa [ofDigits_decAux n n le_rfl, ofDigits_decAux m m le_rfl] at h4

theorem commitIdBytes_inj {n m : Nat} (hn : n ≠ 0) (hm : m ≠ 0)
    (h : commitIdBytes n = commitIdBytes m) : n = m := by
  unfold commitIdBytes at h
  exact decimalBytes_inj hn hm (List.append_cancel_left h)

/-- Claim C9, amended: a successful commit assigns the id `"commit_N"` (decimal
`N` = the new commit count), not a 16-hex-character id; in a database whose log
follows this scheme the ids remain canonical after every commit, the new id
becomes the current commit, and all ids in the log are pairwise distinct (their
numeric suffixes strictly increase with log position). -/
theorem claim_C9_amended (db : DB) (msg : List Nat) (now : Nat)
    (hdb : commitIdsCanonical db) :
    commitIdsCanonical (fossil_bluecrab_core_commit db msg now).2 ∧
    (fossil_bluecrab_core_commit db msg now).2.currentCommit
      = some (commitIdBytes (db.commits.length + 1)) ∧
    ((fossil_bluecrab_core_commit db msg now).2.commits.map Commit.hash).Nodup := by
  have hcanon : commitIdsCanonical (fossil_bluecrab_core_commit db msg now).2 := by
    intro i h
    simp only [fossil_bluecrab_core_commit] at h ⊢
    rcases Nat.lt_or_ge i db.commits.length with hi | hi
    · rw [List.getElem_append_left hi]
      exact hdb i hi
    · have hlen : i = db.commits.length := by
        simp [List.length_append] at h
        omega
      subst hlen
      simp
  refine ⟨hcanon, rfl, ?_⟩
  have hmap : (fossil_bluecrab_core_commit db msg now).2.commits.map Commit.hash
      = (List.range (fossil_bluecrab_core_commit db msg now).2.commits.length).map
          (fun i => commitIdBytes (i + 1)) := by
    apply List.ext_getElem
    · simp
    · intro i h1 h2
      simp only [List.getElem_map, List.getElem_range]
      exact hcanon i (by simpa using h1)
  rw [hmap]
  exact List.Nodup.map
    (fun a b hab => by
      have := commitIdBytes_inj (Nat.succ_ne_zero a) (Nat.succ_ne_zero b) hab
      omega)
    (List.nodup_range _)

/-- Witness for claim C9 starting from the freshly initialized database (whose
empty log is vacuously canonical). -/
theorem claim_C9_amended_witness :
    commitIdsCanonical (fossil_bluecrab_core_commit fossil_bluecrab_core_init [109] 3).2 ∧
    (fossil_bluecrab_core_commit fossil_bluecrab_core_init [109] 3).2.currentCommit
      = some (commitIdBytes 1) ∧
    ((fossil_bluecrab_core_commit fossil_bluecrab_core_init [109] 3).2.commits.map
        Commit.hash).Nodup :=
  claim_C9_amended fossil_bluecrab_core_init [109] 3
    (fun i h => absurd h (by simp [fossil_bluecrab_core_init]))

/-- Counterexample to claim C9 as stated: the first commit's id is the 8-byte
string `"commit_1"` — not 16 hexadecimal characters. -/
theorem claim_C9_counterexample :
    (fossil_bluecrab_core_commit fossil_bluecrab_core_init [109] 3).2.commits.map Commit.hash
      = [[99, 111, 109, 109, 105, 116, 95, 49]] ∧
    ([99, 111, 109, 109, 105, 116, 95, 49] : List Nat).length ≠ 16 := by
  refine ⟨by decide, by decide⟩

/-! ## Claim C3 -/

/-- With auto-resolve off, the source loop aborts with `false` as soon as any
conflicting key exists in the scanned list. -/
theorem mergeLoop_conflict_false (dstSnap : List Entry) (now : Nat) :
    ∀ (l : List Entry) (db : DB), MergeConflict l dstSnap →
      (mergeLoop false dstSnap now db l).1 = false := by
  intro l
  induction l with
  | nil =>
    rintro db ⟨se, hmem, _⟩
    cases hmem
  | cons se0 rest ih =>
    rintro db ⟨se, hmem, te, hfind, hne⟩
    rcases List.mem_cons.mp hmem with rfl | hmem2
    · simp only [mergeLoop, hfind]
      rw [if_neg hne]
      rfl
    · cases hfd : bluecrab_find_entry dstSnap se0.key with
      | none =>
        simp only [mergeLoop, hfd]
        exact ih _ ⟨se, hmem2, te, hfind, hne⟩
      | some te0 =>
        by_cases he : se0.hash = te0.hash
        · simp only [mergeLoop, hfd]
          rw [if_pos he]
          exact ih _ ⟨se, hmem2, te, hfind, hne⟩
        · simp only [mergeLoop, hfd]
          rw [if_neg he]
          rfl

/-- Claim C3, amended: when both commits exist and the source snapshot holds a
key conflicting with the target snapshot, `merge(src, tgt, auto_resolve=false)`
returns failure — but the live set it leaves behind is the target snapshot
reinstalled through `set` (fresh timestamps, cleared metadata, recomputed
hashes) plus any source-only keys inserted before the conflict was reached, not
a bit-identical copy of the target snapshot. -/
theorem claim_C3_amended (db : DB) (src tgt : List Nat) (now : Nat) (sc tc : Commit)
    (hs : bluecrab_find_commit db src = some sc)
    (ht : bluecrab_find_commit db tgt = some tc)
    (hc : MergeConflict sc.snapshot tc.snapshot) :
    (fossil_bluecrab_core_merge db src tgt false now).1 = false := by
  simp only [fossil_bluecrab_core_merge, hs, ht]
  rw [mergeLoop_conflict_false tc.snapshot now sc.snapshot _ hc]
  simp

/-- Witness for claim C3 at the concrete merge scenario (`exMergeDB`): the
source's second snapshot entry conflicts on key `"b"`. -/
theorem claim_C3_amended_witness :
    (fossil_bluecrab_core_merge exMergeDB (commitIdBytes 2) (commitIdBytes 1) false 9).1
      = false :=
  claim_C3_amended exMergeDB (commitIdBytes 2) (commitIdBytes 1) 9 exSrcCommit exTgtCommit
    (by decide) (by decide)
    ⟨freshEntry [98] (.vI32 2) 2, by decide, freshEntry [98] (.vI32 1) 1, by decide, by decide⟩

/-- Counterexample to claim C3 as stated: the aborted merge leaves the live set
holding the source-only key `"a"` inserted before the conflict (keys `"b"` then
`"a"`), which is not bit-identical to the target's one-entry snapshot. -/
theorem claim_C3_counterexample :
    (fossil_bluecrab_core_merge exMergeDB (commitIdBytes 2) (commitIdBytes 1) false 9).1
      = false ∧
    (fossil_bluecrab_core_merge exMergeDB (commitIdBytes 2) (commitIdBytes 1) false 9).2.entries.map
        Entry.key = [[98], [97]] ∧
    exTgtCommit.snapshot.map Entry.key = [[98]] ∧
    (fossil_bluecrab_core_merge exMergeDB (commitIdBytes 2) (commitIdBytes 1) false 9).2.entries
      ≠ exTgtCommit.snapshot := by
  refine ⟨by decide, by decide, by decide, by decide⟩

/-! ## Claim C1: codec round-trip lemmas -/

theorem leBytes_length : ∀ w n : Nat, (leBytes w n).length = w := by
  intro w
  induction w with
  | zero => intro n; rfl
  | succ w ih => intro n; simp [leBytes, ih]

theorem combineLE_leBytes : ∀ w n : Nat, n < 256 ^ w → combineLE (leBytes w n) = n := by
  intro w
  induction w with
  | zero =>
    intro n h
    simp only [pow_zero, Nat.lt_one_iff] at h
    subst h
    rfl
  | succ w ih =>
    intro n h
    have hdiv : n / 256 < 256 ^ w := by
      rw [Nat.div_lt_iff_lt_mul (by norm_num)]
      calc n < 256 ^ (w + 1) := h
        _ = 256 ^ w * 256 := by ring
    simp only [leBytes, combineLE, ih (n / 256) hdiv]
    omega

theorem readBytesN_exact (xs r : List Nat) : readBytesN xs.length (xs ++ r) = some (xs, r) := by
  unfold readBytesN
  rw [if_pos (by simp)]
  rw [List.take_left, List.drop_left]

theorem readBytesN_of_length (n : Nat) (xs r : List Nat) (hl : xs.length = n) :
    readBytesN n (xs ++ r) = some (xs, r) := by
  subst hl
  exact readBytesN_exact xs r

theorem readNat8_leBytes (n : Nat) (r : List Nat) (h : n < 18446744073709551616) :
    readNat8 (leBytes 8 n ++ r) = some (n, r) := by
  have h256 : n < 256 ^ 8 := by
    have e : (256 : Nat) ^ 8 = 18446744073709551616 := by norm_num
    omega
  unfold readNat8
  simp only [readBytesN_of_length 8 (leBytes 8 n) r (leBytes_length 8 n),
    combineLE_leBytes 8 n h256]

theorem readNat4_leBytes (n : Nat) (r : List Nat) (h : n < 4294967296) :
    readNat4 (leBytes 4 n ++ r) = some (n, r) := by
  have h256 : n < 256 ^ 4 := by
    have e : (256 : Nat) ^ 4 = 4294967296 := by norm_num
    omega
  unfold readNat4
  simp only [readBytesN_of_length 4 (leBytes 4 n) r (leBytes_length 4 n),
    combineLE_leBytes 4 n h256]

theorem readChunk_chunk (s r : List Nat) (h : s.length + 1 < 18446744073709551616) :
    readChunk (chunk s ++ r) = some (s, r) := by
  unfold readChunk chunk
  simp only [List.append_assoc]
  have h1 := readNat8_leBytes (s.length + 1) (s ++ ([0] ++ r)) h
  have h2 : readBytesN (s.length + 1) (s ++ ([0] ++ r)) = some (s ++ [0], r) := by
    have h3 := readBytesN_of_length (s.length + 1) (s ++ [0]) r (by simp)
    simpa [List.append_assoc] using h3
  simp only [h1, h2, List.dropLast_concat]

theorem readOptChunk_optChunk (o : Option (List Nat)) (r : List Nat)
    (h : optLenRT o = true) : readOptChunk (optChunk o ++ r) = some (o, r) := by
  cases o with
  | none =>
    unfold readOptChunk optChunk
    rw [readNat8_leBytes 0 r (by norm_num)]
    rfl
  | some s =>
    have hb : s.length + 1 < 18446744073709551616 := by simpa [optLenRT] using h
    unfold readOptChunk optChunk chunk
    simp only [List.append_assoc]
    have h1 := readNat8_leBytes (s.length + 1) (s ++ ([0] ++ r)) hb
    have h2 : readBytesN (s.length + 1) (s ++ ([0] ++ r)) = some (s ++ [0], r) := by
      have h3 := readBytesN_of_length (s.length + 1) (s ++ [0]) r (by simp)
      simpa [List.append_assoc] using h3
    simp only [h1]
    rw [if_neg (by omega : ¬(s.length + 1 = 0))]
    simp only [h2, List.dropLast_concat]

theorem loadValue_valueBlock (v : Value) (r : List Nat) (h : valueRT v = true) :
    loadValue (tagOf v) (valueBlock v ++ r) = some (v, r) := by
  cases v with
  | vI32 b =>
    have hb : b < 4294967296 := by simpa [valueRT] using h
    have h256 : b < 256 ^ 4 := by
      have e : (256 : Nat) ^ 4 = 4294967296 := by norm_num
      omega
    unfold loadValue valueBlock tagOf
    rw [if_pos rfl]
    simp only [readBytesN_of_length 4 (leBytes 4 b) r (leBytes_length 4 b),
      combineLE_leBytes 4 b h256]
  | vCStr so =>
    cases so with
    | none => simp [valueRT] at h
    | some s =>
      have hb : s.length + 1 < 18446744073709551616 := by simpa [valueRT] using h
      unfold loadValue valueBlock tagOf
      rw [if_neg (by norm_num), if_pos rfl]
      simp only [readChunk_chunk s r hb]
  | vI8 b => simp [valueRT] at h
  | vI16 b => simp [valueRT] at h
  | vI64 b => simp [valueRT] at h
  | vU8 b => simp [valueRT] at h
  | vU16 b => simp [valueRT] at h
  | vU32 b => simp [valueRT] at h
  | vU64 b => simp [valueRT] at h
  | vF32 b => simp [valueRT] at h
  | vF64 b => simp [valueRT] at h
  | vChar b => simp [valueRT] at h
  | vBool b => simp [valueRT] at h
  | vHex s => simp [valueRT] at h
  | vOct s => simp [valueRT] at h
  | vBin s => simp [valueRT] at h
  | vSize b => simp [valueRT] at h
  | vDatetime b => simp [valueRT] at h
  | vDuration b => simp [valueRT] at h
  | vAny => simp [valueRT] at h
  | vNull => simp [valueRT] at h

theorem tagOf_lt (v : Value) : tagOf v < 4294967296 := by
  cases v <;> simp [tagOf]

theorem loadEntry_entryBlock (e : Entry) (r : List Nat) (h : entryRT e = true) :
    loadEntry (entryBlock e ++ r) = some (e, r) := by
  obtain ⟨key, v, created, updated, metadata, hash⟩ := e
  simp only [entryRT, Bool.and_eq_true, and_assoc, decide_eq_true_eq,
    Option.isNone_iff_eq_none] at h
  obtain ⟨hv, hmeta, hkey, hcreated, hupdated, hhash⟩ := h
  subst hmeta
  unfold loadEntry entryBlock
  simp only [List.append_assoc]
  simp only [readChunk_chunk _ _ hkey, readNat4_leBytes _ _ (tagOf_lt v),
    loadValue_valueBlock v _ hv, readNat8_leBytes _ _ hcreated,
    readNat8_leBytes _ _ hupdated, readOptChunk_optChunk _ _ hhash]

theorem loadCount_flatten {α : Type} (p : List Nat → Option (α × List Nat)) (blk : α → List Nat) :
    ∀ l : List α, (∀ a ∈ l, ∀ r, p (blk a ++ r) = some (a, r)) →
      ∀ r, loadCount p l.length ((l.map blk).flatten ++ r) = some (l, r) := by
  intro l
  induction l with
  | nil => intro _ r; simp [loadCount]
  | cons a as ih =>
    intro H r
    simp only [List.map_cons, List.flatten_cons, List.length_cons, List.append_assoc]
    have h1 := H a (List.mem_cons_self a as) ((as.map blk).flatten ++ r)
    have h2 := ih (fun x hx r2 => H x (List.mem_cons_of_mem a hx) r2) r
    simp only [loadCount, h1, h2]

theorem loadCommit_commitBlock (c : Commit) (r : List Nat) (h : commitRT c = true) :
    loadCommit (commitBlock c ++ r) = some (c, r) := by
  obtain ⟨ch, message, timestamp, snapshot⟩ := c
  simp only [commitRT, Bool.and_eq_true, and_assoc, decide_eq_true_eq,
    List.all_eq_true] at h
  obtain ⟨hhash, hmsg, hts, hcnt, hall⟩ := h
  unfold loadCommit commitBlock
  simp only [List.append_assoc]
  simp only [readChunk_chunk _ _ hhash, readChunk_chunk _ _ hmsg,
    readNat8_leBytes _ _ hts, readNat8_leBytes _ _ hcnt,
    loadCount_flatten loadEntry entryBlock snapshot
      (fun e he r2 => loadEntry_entryBlock e r2 (hall e he))]

/-- Claim C1, amended: `load(save(db))` reproduces `db` exactly when every
entry — live or in a snapshot — has a value of variant `i32` (or `cstr` with a
non-NULL payload) and no metadata annotation, and all counts, lengths and
timestamps fit their 64-bit fields.  For all other variants `save` drops the
payload, and it never writes metadata, so such databases cannot round-trip. -/
theorem claim_C1_amended (db : DB) (h : dbRT db = true) :
    fossil_bluecrab_core_load (fossil_bluecrab_core_save db) = some db := by
  obtain ⟨entries, commits, branch, cur⟩ := db
  simp only [dbRT, Bool.and_eq_true, and_assoc, decide_eq_true_eq,
    List.all_eq_true] at h
  obtain ⟨hecnt, heall, hccnt, hcall, hbr, hcur⟩ := h
  unfold fossil_bluecrab_core_load fossil_bluecrab_core_save
  simp only [List.append_assoc]
  simp only [readNat8_leBytes _ _ hecnt,
    loadCount_flatten loadEntry entryBlock entries
      (fun e he r2 => loadEntry_entryBlock e r2 (heall e he)),
    readNat8_leBytes _ _ hccnt,
    loadCount_flatten loadCommit commitBlock commits
      (fun c hc r2 => loadCommit_commitBlock c r2 (hcall c hc)),
    readChunk_chunk _ _ hbr,
    (show readOptChunk (optChunk cur) = some (cur, []) by
      simpa using readOptChunk_optChunk cur [] hcur)]

/-- Witness for claim C1 at the concrete state `exRoundTripDB` (an i32 entry, a
cstr entry, and one commit). -/
theorem claim_C1_amended_witness :
    dbRT exRoundTripDB = true ∧
    fossil_bluecrab_core_load (fossil_bluecrab_core_save exRoundTripDB)
      = some exRoundTripDB :=
  ⟨by decide, claim_C1_amended exRoundTripDB (by decide)⟩

/-- Counterexample to claim C1 as stated: a database whose entry carries a
metadata annotation does not round-trip — indeed `save` emits the very same
bytes for it as for the database without the annotation, so no loader could
recover it. -/
theorem claim_C1_counterexample :
    fossil_bluecrab_core_load (fossil_bluecrab_core_save exMetaDB) ≠ some exMetaDB ∧
    fossil_bluecrab_core_save exMetaDB = fossil_bluecrab_core_save exNoMetaDB ∧
    exMetaDB ≠ exNoMetaDB := by
  refine ⟨by decide, by decide, by decide⟩

end BlueCrab
